import Mathlib

/-!
Verification of the request-multiplexing and channel-dispatch layer of the
Kolibri GNOME search provider (endless-key-flatpak,
src/kolibri_gnome_search_provider).

Strings are modelled as lists of characters.  GLib string helpers used by the
source (g_strsplit with max_tokens 2, g_str_has_prefix, g_strjoinv,
g_strv_contains, g_strcmp0 on possibly-NULL strings) are given faithful
executable definitions, and each C function of the provider is translated to a
Lean definition of the same name.
-/

namespace KolibriSearchProvider

/-- Strings are lists of characters; NULL-able C strings are Option Str. -/
abbrev Str := List Char

instance {ε α : Type} [DecidableEq ε] [DecidableEq α] : DecidableEq (Except ε α) :=
  fun a b =>
    match a, b with
    | .ok x, .ok y =>
      if h : x = y then isTrue (by rw [h]) else isFalse (by simp [h])
    | .error x, .error y =>
      if h : x = y then isTrue (by rw [h]) else isFalse (by simp [h])
    | .ok _, .error _ => isFalse (by simp)
    | .error _, .ok _ => isFalse (by simp)

/-- Return the text before and after the first occurrence of sep, or none
when sep does not occur.  Helper for g_strsplit with max_tokens 2. -/
def breakAtFirst (sep : Char) : Str → Option (Str × Str)
  | [] => none
  | c :: cs =>
    if c = sep then some ([], cs)
    else (breakAtFirst sep cs).map (fun p => (c :: p.1, p.2))

/-- Model of g_strsplit(s, sep, 2) for a one-character separator: the empty
string splits to an empty vector; a string without the separator yields one
token; otherwise the string is split at the first separator, the remainder
(later separators included) forming the second token. -/
def gStrsplit2 (sep : Char) (s : Str) : List Str :=
  if s = [] then []
  else
    match breakAtFirst sep s with
    | none => [s]
    | some (a, b) => [a, b]

/-- Error kinds raised by the search provider (the
KolibriGnomeSearchProviderError enum), plus the opaque errors coming back
from collaborators (upstream daemon errors and GLib cancellation). -/
inductive KError where
  | invalidItemId (itemId : Str)
  | invalidNodePath (nodePath : Str)
  | wrongChannel (itemId : Str) (channelId : Str)
deriving DecidableEq, Repr

/-- Translation of parse_item_id: a NULL item id parses to (NULL, NULL); a
non-NULL item id is split with g_strsplit(item_id, "?", 2) and must produce
exactly two tokens, else the call fails with INVALID_ITEM_ID. -/
def parse_item_id (itemId : Option Str) : Except KError (Option Str × Option Str) :=
  match itemId with
  | none => .ok (none, none)
  | some s =>
    match gStrsplit2 '?' s with
    | [a, b] => .ok (some a, some b)
    | _ => .error (.invalidItemId s)

/-- Translation of parse_node_path: a NULL node path parses to (NULL, NULL);
a non-NULL node path is split with g_strsplit(node_path, "/", 2) and must
produce exactly two tokens, else the call fails with INVALID_NODE_PATH. -/
def parse_node_path (nodePath : Option Str) : Except KError (Option Str × Option Str) :=
  match nodePath with
  | none => .ok (none, none)
  | some s =>
    match gStrsplit2 '/' s with
    | [a, b] => .ok (some a, some b)
    | _ => .error (.invalidNodePath s)

/-- Modelled from the spec: encode(nodeKind, nodeId, originChannel) yields
the composite item id "{nodeKind}/{nodeId}?{originChannel}".  The encoder
itself lives in the Kolibri daemon, outside this repository; spec section 4.4
gives its exact shape. -/
def encode_item_id (nodeKind nodeId originChannel : Str) : Str :=
  nodeKind ++ '/' :: nodeId ++ '?' :: originChannel

example : parse_item_id (some "video/42?sci".toList) =
    .ok (some "video/42".toList, some "sci".toList) := by rfl

example : parse_item_id (some "".toList) = .error (.invalidItemId []) := by rfl

example : parse_item_id (some "a?b?c".toList) =
    .ok (some "a".toList, some "b?c".toList) := by rfl

example : parse_node_path (some "video/42".toList) =
    .ok (some "video".toList, some "42".toList) := by rfl

/-- Translation of filter_item_id_for_channel: parse the item id and its node
path (dropping the item on either parse failure); an item is a channel root
when its node id equals its node context (g_strcmp0 compares the possibly-NULL
strings).  With a channel id the item matches when its context equals the
channel id and it is not the channel root; without one, everything matches
unless a non-NULL exclude list contains the item's context. -/
def filter_item_id_for_channel (itemId : Str) (channelId : Option Str)
    (excludeChannelIds : Option (List Str)) : Bool :=
  match parse_item_id (some itemId) with
  | .error _ => false
  | .ok (nodePath, nodeContext) =>
    match parse_node_path nodePath with
    | .error _ => false
    | .ok (_nodeKind, nodeId) =>
      let isChannelRoot : Bool := nodeId = nodeContext
      match channelId with
      | some ch => decide (nodeContext = some ch) && !isChannelRoot
      | none =>
        match excludeChannelIds with
        | none => true
        | some ex =>
          !(match nodeContext with
            | some c => decide (c ∈ ex)
            | none => false)

/-- Translation of filter_item_ids: keep, in input order, the item ids
accepted by filter_item_id_for_channel. -/
def filter_item_ids (allItemIds : List Str) (channelId : Option Str)
    (excludeChannelIds : Option (List Str)) : List Str :=
  allItemIds.filter (fun itemId => filter_item_id_for_channel itemId channelId excludeChannelIds)

/-- Full decoding of an item id: the node kind, node id and origin channel,
when both parse_item_id and parse_node_path succeed. -/
def decodeItem (itemId : Str) : Option (Str × Str × Str) :=
  match parse_item_id (some itemId) with
  | .ok (some nodePath, some nodeContext) =>
    match parse_node_path (some nodePath) with
    | .ok (some nodeKind, some nodeId) => some (nodeKind, nodeId, nodeContext)
    | _ => none
  | _ => none

/-- The object-path prefix that marks channel-specific children:
SEARCH_PROVIDER_OBJECT_PATH "/" "channel_".  The base path itself comes from
the build configuration, so every definition is parametric in it. -/
def channelObjectPathPrefix (basePath : Str) : Str :=
  basePath ++ "/channel_".toList

/-- Translation of get_channel_id_for_invocation, applied to the invocation's
object path: when the path starts with the channel object-path prefix the
remainder of the path is the channel id, otherwise there is none. -/
def get_channel_id_for_object_path (basePath objectPath : Str) : Option Str :=
  if (channelObjectPathPrefix basePath).isPrefixOf objectPath then
    some (objectPath.drop (channelObjectPathPrefix basePath).length)
  else
    none

/-- Translation of subtree_enumerate: the subtree reports no enumerable
children (the C function returns NULL). -/
def subtree_enumerate : List Str := []

/-- Modelled from the spec: the name of the fixed inbound search interface
(org.gnome.Shell.SearchProvider2); the generated skeleton holding it is not
part of this repository. -/
def searchProviderInterfaceName : Str := "org.gnome.Shell.SearchProvider2".toList

/-- Translation of subtree_dispatch: a handler (vtable) is produced exactly
when the child node is present, starts with "channel_", and the call is for
the search-provider interface; the result is whether a handler is returned. -/
def subtree_dispatch (node : Option Str) (interfaceName : Str) : Bool :=
  match node with
  | some n =>
    ("channel_".toList.isPrefixOf n) && decide (interfaceName = searchProviderInterfaceName)
  | none => false

/-- Modelled from the spec: DISPATCH_URI_SCHEME is supplied by the build
configuration (the x-kolibri-dispatch scheme handled by kolibri-launcher). -/
def DISPATCH_URI_SCHEME : Str := "x-kolibri-dispatch".toList

/-- The URI assembled by g_uri_build in build_kolibri_dispatch_uri: scheme,
possibly-NULL host (the channel id), path and possibly-NULL query. -/
structure GUri where
  scheme : Str
  host : Option Str
  path : Str
  query : Option Str
deriving DecidableEq, Repr

/-- Translation of build_kolibri_dispatch_uri: parse the item id; fail with
WRONG_CHANNEL when the item id and the channel id are both non-NULL and the
decoded node context differs from the channel id; otherwise build the URI
with the channel id as host, "/" ++ node path as path (empty without an item
id) and "search=" ++ query as query. -/
def build_kolibri_dispatch_uri (channelId itemId query : Option Str) :
    Except KError GUri :=
  match parse_item_id itemId with
  | .error e => .error e
  | .ok (nodePath, nodeContext) =>
    if itemId.isSome ∧ channelId.isSome ∧ nodeContext ≠ channelId then
      .error (.wrongChannel (itemId.getD []) (channelId.getD []))
    else
      let uriQuery := query.map (fun q => "search=".toList ++ q)
      let uriPath := nodePath.map (fun p => '/' :: p)
      .ok ⟨DISPATCH_URI_SCHEME, channelId, uriPath.getD [], uriQuery⟩

example :
    build_kolibri_dispatch_uri (some "sci".toList) (some "video/42?sci".toList)
      (some "newton".toList) =
    .ok ⟨DISPATCH_URI_SCHEME, some "sci".toList, "/video/42".toList,
      some "search=newton".toList⟩ := by rfl

example :
    build_kolibri_dispatch_uri (some "sci".toList) (some "video/42?other".toList)
      (some "x".toList) =
    .error (.wrongChannel "video/42?other".toList "sci".toList) := by rfl

example :
    filter_item_ids ["math/math?math".toList, "math/algebra?math".toList]
      (some "math".toList) none = ["math/algebra?math".toList] := by rfl

example :
    filter_item_ids ["a/1?a".toList, "b/2?b".toList] none (some ["b".toList]) =
      ["a/1?a".toList] := by rfl

/-- Which shell search method created a subscriber's task: the two handlers
differ only in the completion callback passed to create_search_task. -/
inductive SearchOp where
  | initial
  | subsearch
deriving DecidableEq, Repr

/-- A task attached to a multiplexer by kolibri_task_multiplexer_add_next: it
records the originating D-Bus invocation (its id and object path), which
handler created it, and the multiplexer whose GCancellable the task was
created with (g_task_propagate checks that cancellable). -/
structure Subscriber where
  callId : Nat
  objectPath : Str
  op : SearchOp
  muxId : Nat
deriving DecidableEq, Repr

/-- State of one KolibriTaskMultiplexer: whether main_task is still set (it
is cleared after the completion broadcast), whether its GCancellable has been
cancelled, and the next_tasks list. -/
structure Mux where
  mainTaskAlive : Bool
  cancelled : Bool
  nextTasks : List Subscriber
deriving DecidableEq, Repr

/-- Translation of kolibri_task_multiplexer_new: a fresh multiplexer with a
live main task, an uncancelled cancellable and no next tasks. -/
def kolibri_task_multiplexer_new : Mux := ⟨true, false, []⟩

instance : Inhabited Mux := ⟨kolibri_task_multiplexer_new⟩

/-- Translation of kolibri_task_multiplexer_get_completed: true once
main_task has been cleared by the completion broadcast. -/
def kolibri_task_multiplexer_get_completed (m : Mux) : Bool :=
  !m.mainTaskAlive

/-- Translation of kolibri_task_multiplexer_cancel: cancel the multiplexer's
GCancellable. -/
def kolibri_task_multiplexer_cancel (m : Mux) : Mux :=
  { m with cancelled := true }

/-- Translation of kolibri_task_multiplexer_add_next: append a new task to
the multiplexer's next_tasks list. -/
def kolibri_task_multiplexer_add_next (m : Mux) (s : Subscriber) : Mux :=
  { m with nextTasks := m.nextTasks ++ [s] }

/-- Values living on the GLib heap: GError values and GVariant string-array
payloads.  Modelling the heap makes per-delivery error copies (fresh cells)
distinguishable from the shared payload (one cell referenced by everyone). -/
inductive GVal where
  | gerror (message : Str)
  | gvariant (itemIds : List Str)
deriving DecidableEq, Repr

/-- A completion delivered to one subscriber task: g_task_return_error /
g_task_return_pointer record the result on the task and then either invoke
the task's ready callback immediately (when returning from a main-context
source dispatch in a later iteration than the task's creation, with an
uncancelled cancellable) or queue it in an idle source (when the task's
cancellable has been cancelled).  ref points into the heap at the delivered
GError or GVariant. -/
structure PendingCb where
  sub : Subscriber
  ref : Nat
deriving DecidableEq, Repr

/-- Allocation loop of kolibri_task_multiplexer_return_error_to_next: each
task receives g_error_copy(error), a freshly allocated GError cell. -/
def deliver_error_copies (heap : List GVal) (subs : List Subscriber) (e : Str) :
    List GVal × List PendingCb :=
  match subs with
  | [] => (heap, [])
  | s :: rest =>
    let r := heap.length
    let heap1 := heap ++ [GVal.gerror e]
    let (heap2, cbs) := deliver_error_copies heap1 rest e
    (heap2, ⟨s, r⟩ :: cbs)

/-- Translation of kolibri_task_multiplexer_return_error_to_next: every task
in next_tasks is returned an independent copy of the error (one fresh heap
cell each, in attachment order), then the next_tasks list is cleared. -/
def kolibri_task_multiplexer_return_error_to_next (heap : List GVal) (m : Mux)
    (e : Str) : List GVal × Mux × List PendingCb :=
  let (heap', cbs) := deliver_error_copies heap m.nextTasks e
  (heap', { m with nextTasks := [] }, cbs)

/-- Translation of kolibri_task_multiplexer_return_variant_to_next: every
task in next_tasks is returned the same payload (g_variant_ref of the one
variant, so one shared heap cell), then the next_tasks list is cleared. -/
def kolibri_task_multiplexer_return_variant_to_next (m : Mux) (ref : Nat) :
    Mux × List PendingCb :=
  ({ m with nextTasks := [] }, m.nextTasks.map (fun s => ⟨s, ref⟩))

/-- A response returned to a D-Bus invocation: either a GError or the
filtered item-id list handed to the shell completion function. -/
abbrev InvocationResponse := Except Str (List Str)

/-- State of the whole search-provider process, as seen from the single GLib
main loop.  muxes holds every multiplexer ever created (a multiplexer
discarded by the provider stays alive through the main_task reference cycle
until its broadcast fires); current and currentQuery are the provider's
search_multiplexer and search_multiplexer_query fields; upstream logs every
GetItemIdsForSearch call issued to the daemon, in order; pendingCbs is the
idle queue of subscriber completions; responses logs completed invocations. -/
structure ProviderState where
  muxes : List Mux
  current : Option Nat
  currentQuery : Option Str
  heap : List GVal
  upstream : List (Nat × Str)
  pendingCbs : List PendingCb
  responses : List (Nat × InvocationResponse)
deriving DecidableEq, Repr

/-- The provider right after kolibri_gnome_search_provider_init: no
multiplexer, no recorded query, nothing in flight. -/
def initState : ProviderState := ⟨[], none, none, [], [], [], []⟩

/-- Translation of g_strjoinv(" ", terms): the query is the space-joined
search terms. -/
def joinSpace (terms : List Str) : Str :=
  List.intercalate [' '] terms

/-- Translation of kolibri_gnome_search_provider_can_attach_search: the
current multiplexer can take another search iff it is not completed and the
recorded query equals the incoming one (g_strcmp0 equality).  Called only
when a current multiplexer exists. -/
def kolibri_gnome_search_provider_can_attach_search (st : ProviderState)
    (query : Str) : Bool :=
  match st.current with
  | none => false
  | some m =>
    !(kolibri_task_multiplexer_get_completed (st.muxes.getD m default)) &&
      decide (st.currentQuery = some query)

/-- Translation of kolibri_gnome_search_provider_get_search_multiplexer:
with no current multiplexer, or one that cannot take the query (completed or
different query — the old one is then cancelled and discarded), a new
multiplexer is created and recorded together with the query, and the result
flag says the multiplexer is new; otherwise the current one is reused.
Returns the updated state, the index of the chosen multiplexer, and the
is-new flag. -/
def kolibri_gnome_search_provider_get_search_multiplexer (st : ProviderState)
    (query : Str) : ProviderState × Nat × Bool :=
  match st.current with
  | none =>
    ({ st with
        muxes := st.muxes ++ [kolibri_task_multiplexer_new],
        current := some st.muxes.length,
        currentQuery := some query },
     st.muxes.length, true)
  | some m =>
    if kolibri_gnome_search_provider_can_attach_search st query then
      (st, m, false)
    else
      let cancelledMuxes := st.muxes.set m (kolibri_task_multiplexer_cancel (st.muxes.getD m default))
      ({ st with
          muxes := cancelledMuxes ++ [kolibri_task_multiplexer_new],
          current := some st.muxes.length,
          currentQuery := some query },
       st.muxes.length, true)

/-- Translation of create_search_task: join the terms into the query, fetch
(or create) the search multiplexer, attach a task for this invocation to it,
and issue the upstream GetItemIdsForSearch call exactly when the multiplexer
is new. -/
def create_search_task (st : ProviderState) (objectPath : Str) (callId : Nat)
    (op : SearchOp) (terms : List Str) : ProviderState :=
  let query := joinSpace terms
  let (st1, m, isNew) := kolibri_gnome_search_provider_get_search_multiplexer st query
  let sub : Subscriber := ⟨callId, objectPath, op, m⟩
  let st2 := { st1 with
    muxes := st1.muxes.set m (kolibri_task_multiplexer_add_next (st1.muxes.getD m default) sub) }
  if isNew then
    { st2 with upstream := st2.upstream ++ [(m, query)] }
  else
    st2

/-- Modelled from the spec: the GLib G_IO_ERROR_CANCELLED message produced
when a task whose GCancellable was cancelled is finished or propagated. -/
def gioCancelledError : Str := "Operation was cancelled".toList

/-- Translation of get_channel_ids_for_invocation_tasks: the channel ids of
the given tasks' invocations, in order, skipping invocations without one. -/
def get_channel_ids_for_invocation_tasks (basePath : Str)
    (tasks : List Subscriber) : List Str :=
  tasks.filterMap (fun t => get_channel_id_for_object_path basePath t.objectPath)

/-- The ready callback of one completed subscriber task
(search_multiplexer_to_*_invocation_async_ready_cb), which runs
process_search_invocation_task_result.  g_task_propagate_pointer first checks
the task's cancellable (the cancellable of the multiplexer the task was
created on) and yields G_IO_ERROR_CANCELLED if it was cancelled; a propagated
error is returned to the invocation.  Otherwise the payload's item ids are
filtered: with a channel id from the invocation's object path the exclude
list stays NULL; without one it is computed from the next_tasks of the
provider's current multiplexer at the moment the callback runs.  The
filtered ids complete the invocation. -/
def invocation_task_ready_cb (basePath : Str) (st : ProviderState)
    (cb : PendingCb) : ProviderState :=
  let taskCancelled :=
    match st.muxes.get? cb.sub.muxId with
    | some mux => mux.cancelled
    | none => false
  if taskCancelled then
    { st with
        responses := st.responses ++ [(cb.sub.callId, .error gioCancelledError)] }
  else
    match st.heap.get? cb.ref with
    | some (.gerror e) =>
      { st with responses := st.responses ++ [(cb.sub.callId, .error e)] }
    | some (.gvariant allItemIds) =>
      let channelId := get_channel_id_for_object_path basePath cb.sub.objectPath
      let excludeChannelIds : Option (List Str) :=
        match channelId with
        | some _ => none
        | none =>
          let currentTasks :=
            match st.current with
            | some m => (st.muxes.getD m default).nextTasks
            | none => []
          some (get_channel_ids_for_invocation_tasks basePath currentTasks)
      let filtered := filter_item_ids allItemIds channelId excludeChannelIds
      { st with responses := st.responses ++ [(cb.sub.callId, .ok filtered)] }
    | none => st

/-- Translation of multiplex_dbus_proxy_call_async_ready_cb composed with
kolibri_task_multiplexer_push_variant / push_error and
kolibri_task_multiplexer_main_task_async_ready_cb.  Modelled from the spec
for the bridge callback itself (declared in libkolibri_daemon_dbus, outside
this repository): when the upstream GetItemIdsForSearch call for multiplexer
m resolves, its result (or error) is pushed into the multiplexer, the main
task is propagated — yielding G_IO_ERROR_CANCELLED when the multiplexer's
cancellable was cancelled — and the result is broadcast to every attached
task, after which next_tasks is cleared and main_task dropped.  g_task_return
invokes a task's ready callback immediately when called from a source
dispatch in a later main-loop iteration with an uncancelled cancellable, and
defers it to an idle source when the cancellable is cancelled; the broadcast
runs from such a dispatch, so with an uncancelled multiplexer each ready
callback runs synchronously inside the delivery loop, before
g_list_store_remove_all clears next_tasks (the callbacks only complete their
invocations, so folding them in delivery order is exact), while for a
cancelled multiplexer every completion is queued.  Resolving a multiplexer
whose main task is gone is a no-op (the upstream call resolves exactly
once). -/
def upstream_resolve (basePath : Str) (st : ProviderState) (m : Nat)
    (result : Except Str (List Str)) : ProviderState :=
  match st.muxes.get? m with
  | none => st
  | some mux =>
    if mux.mainTaskAlive then
      if mux.cancelled then
        let (heap', mux', cbs) :=
          kolibri_task_multiplexer_return_error_to_next st.heap mux
            gioCancelledError
        { st with
            heap := heap',
            pendingCbs := st.pendingCbs ++ cbs,
            muxes := st.muxes.set m { mux' with mainTaskAlive := false } }
      else
        match result with
        | .error e =>
          let (heap', mux', cbs) :=
            kolibri_task_multiplexer_return_error_to_next st.heap mux e
          let stProcessed :=
            cbs.foldl (invocation_task_ready_cb basePath) { st with heap := heap' }
          { stProcessed with
              muxes := st.muxes.set m { mux' with mainTaskAlive := false } }
        | .ok itemIds =>
          let ref := st.heap.length
          let heap' := st.heap ++ [GVal.gvariant itemIds]
          let (mux', cbs) := kolibri_task_multiplexer_return_variant_to_next mux ref
          let stProcessed :=
            cbs.foldl (invocation_task_ready_cb basePath) { st with heap := heap' }
          { stProcessed with
              muxes := st.muxes.set m { mux' with mainTaskAlive := false } }
    else
      st

/-- One idle dispatch of a queued (deferred) subscriber completion: pop the
queue head and run its ready callback. -/
def process_pending_cb (basePath : Str) (st : ProviderState) : ProviderState :=
  match st.pendingCbs with
  | [] => st
  | cb :: rest => invocation_task_ready_cb basePath { st with pendingCbs := rest } cb

/-- Run n idle dispatches of queued subscriber completions. -/
def process_n (basePath : Str) : Nat → ProviderState → ProviderState
  | 0, st => st
  | n + 1, st => process_n basePath n (process_pending_cb basePath st)

/-- One main-loop event of the search provider: an inbound search call, the
resolution of an upstream call, or an idle dispatch of a queued subscriber
completion. -/
inductive Step (basePath : Str) : ProviderState → ProviderState → Prop where
  | search (st : ProviderState) (objectPath : Str) (callId : Nat) (op : SearchOp)
      (terms : List Str) :
      Step basePath st (create_search_task st objectPath callId op terms)
  | resolve (st : ProviderState) (m : Nat) (result : Except Str (List Str)) :
      Step basePath st (upstream_resolve basePath st m result)
  | processCb (st : ProviderState) :
      Step basePath st (process_pending_cb basePath st)

/-- States the provider can reach from its initial state. -/
inductive Reachable (basePath : Str) : ProviderState → Prop where
  | init : Reachable basePath initState
  | step {st st' : ProviderState} :
      Reachable basePath st → Step basePath st st' → Reachable basePath st'

/-- Whether an Except value is a success. -/
def exceptIsOk {ε α : Type} : Except ε α → Bool
  | .ok _ => true
  | .error _ => false

/-- Whether a build_kolibri_dispatch_uri result is a WRONG_CHANNEL failure. -/
def resultIsWrongChannel : Except KError GUri → Bool
  | .error (.wrongChannel _ _) => true
  | _ => false

/-- A multiplexer is live while its upstream call is wanted: not cancelled
and its main task still set. -/
def muxLive (m : Mux) : Bool :=
  !m.cancelled && m.mainTaskAlive

/-- Structural invariant of the provider state: the current multiplexer
index, when set, is in range, and every multiplexer other than the current
one has been cancelled or has already completed. -/
def ProviderInv (st : ProviderState) : Prop :=
  (∀ m, st.current = some m → m < st.muxes.length) ∧
  (∀ i, i < st.muxes.length → st.current ≠ some i →
    ((st.muxes.getD i default).cancelled = true ∨
     (st.muxes.getD i default).mainTaskAlive = false))

/-- A concrete base object path used by the executable scenarios. -/
def basePath0 : Str := "/org/endlessos/Key/SearchProvider".toList

/-- Scenario for the per-batch exclude set: three concurrent calls sharing
the query "q", scoped to channel a, channel b and the base path. -/
def c2_st1 : ProviderState :=
  create_search_task initState (basePath0 ++ "/channel_a".toList) 1 .initial ["q".toList]

/-- Second call of the exclude-set scenario, scoped to channel b. -/
def c2_st2 : ProviderState :=
  create_search_task c2_st1 (basePath0 ++ "/channel_b".toList) 2 .initial ["q".toList]

/-- Third call of the exclude-set scenario, on the base path (global scope). -/
def c2_st3 : ProviderState :=
  create_search_task c2_st2 basePath0 3 .initial ["q".toList]

/-- Final state of the exclude-set scenario: the uncancelled upstream call
resolves with one item per channel a, b and c, and the three subscriber
ready callbacks run synchronously inside the broadcast. -/
def c2_final : ProviderState :=
  upstream_resolve basePath0 c2_st3 0
    (.ok ["x/1?a".toList, "x/2?b".toList, "x/3?c".toList])

/-- Scenario for cancellation: a first search call for the query "a" scoped
to channel a, leaving its multiplexer pending. -/
def c6_st1 : ProviderState :=
  create_search_task initState (basePath0 ++ "/channel_a".toList) 1 .initial
    ["a".toList]

theorem breakAtFirst_eq_none_iff (sep : Char) (s : Str) :
    breakAtFirst sep s = none ↔ sep ∉ s := by
  induction s with
  | nil => simp [breakAtFirst]
  | cons c cs ih =>
    by_cases h : c = sep
    · subst h
      simp [breakAtFirst]
    · have h' : ¬ sep = c := fun hh => h hh.symm
      simp [breakAtFirst, h, Option.map_eq_none', ih, List.mem_cons, h']

theorem breakAtFirst_append (sep : Char) (a b : Str) (ha : sep ∉ a) :
    breakAtFirst sep (a ++ sep :: b) = some (a, b) := by
  induction a with
  | nil => simp [breakAtFirst]
  | cons c cs ih =>
    have hc : ¬ c = sep := fun h => ha (h ▸ List.mem_cons_self c cs)
    simp [breakAtFirst, hc, ih (fun h => ha (List.mem_cons_of_mem _ h))]

theorem breakAtFirst_eq_some (sep : Char) (s a b : Str)
    (h : breakAtFirst sep s = some (a, b)) : s = a ++ sep :: b ∧ sep ∉ a := by
  induction s generalizing a b with
  | nil => simp [breakAtFirst] at h
  | cons c cs ih =>
    by_cases hc : c = sep
    · subst hc
      have h' : some (([] : Str), cs) = some (a, b) := by
        simpa [breakAtFirst] using h
      injection h' with h''
      injection h'' with ha hb
      subst ha; subst hb
      simp
    · simp only [breakAtFirst, if_neg hc, Option.map_eq_some'] at h
      obtain ⟨⟨p, q⟩, hpq, hab⟩ := h
      injection hab with ha hb
      subst hb
      obtain ⟨hs, hnp⟩ := ih p q hpq
      subst hs
      subst ha
      refine ⟨by simp, ?_⟩
      intro hmem
      rcases List.mem_cons.1 hmem with hh | hh
      · exact hc hh.symm
      · exact hnp hh

/-- C5: for all strings k, i, c containing neither a slash nor a question
mark, decoding the encoded item id k/i?c with parse_item_id and then
parse_node_path succeeds, yielding node path k/i, node kind k, node id i and
origin channel c. -/
theorem C5_codec_roundtrip (k i c : Str)
    (hk1 : '/' ∉ k) (hk2 : '?' ∉ k) (hi1 : '/' ∉ i) (hi2 : '?' ∉ i)
    (hc1 : '/' ∉ c) (hc2 : '?' ∉ c) :
    parse_item_id (some (encode_item_id k i c)) =
      .ok (some (k ++ '/' :: i), some c) ∧
    parse_node_path (some (k ++ '/' :: i)) = .ok (some k, some i) := by
  constructor
  · have hmem : '?' ∉ k ++ '/' :: i := by
      intro h
      rcases List.mem_append.1 h with h | h
      · exact hk2 h
      · rcases List.mem_cons.1 h with h | h
        · exact absurd h (by decide)
        · exact hi2 h
    have henc : encode_item_id k i c = (k ++ '/' :: i) ++ '?' :: c := by
      unfold encode_item_id
      simp
    have hb := breakAtFirst_append '?' (k ++ '/' :: i) c hmem
    have hne : (k ++ '/' :: i) ++ '?' :: c ≠ [] := by
      simp
    unfold parse_item_id gStrsplit2
    rw [henc]
    simp only [hne, if_false, hb]
  · have hb := breakAtFirst_append '/' k i hk1
    have hne : k ++ '/' :: i ≠ [] := by
      simp
    unfold parse_node_path gStrsplit2
    simp only [hne, if_false, hb]

theorem C5_codec_roundtrip_witness :
    parse_item_id (some (encode_item_id "video".toList "42".toList "sci".toList)) =
      .ok (some "video/42".toList, some "sci".toList) ∧
    parse_node_path (some "video/42".toList) =
      .ok (some "video".toList, some "42".toList) := by
  have h := C5_codec_roundtrip "video".toList "42".toList "sci".toList
    (by decide) (by decide) (by decide) (by decide) (by decide) (by decide)
  exact h

/-- C8 counterexample: the code maps a present but empty item id to an
INVALID_ITEM_ID error rather than to (None, None), and an item id with two
question marks parses successfully (split at the first one) rather than
failing, contradicting the claim as stated. -/
theorem C8_counterexample :
    parse_item_id (some []) = .error (.invalidItemId []) ∧
    parse_item_id (some "a?b?c".toList) =
      .ok (some "a".toList, some "b?c".toList) := by
  exact ⟨rfl, rfl⟩

/-- C8 (amended): parse_item_id maps an absent item id to (None, None); a
present item id (the empty one included) fails with InvalidItemId exactly
when it contains no question mark, and otherwise splits at the first one;
parse_node_path maps an absent node path to (None, None), fails with
InvalidNodePath exactly when a present node path contains no slash, and
otherwise splits at the first one. -/
theorem C8_parse_errors :
    parse_item_id none = .ok (none, none) ∧
    parse_node_path none = .ok (none, none) ∧
    (∀ s : Str, '?' ∉ s → parse_item_id (some s) = .error (.invalidItemId s)) ∧
    (∀ s : Str, '?' ∈ s → ∃ a b, s = a ++ '?' :: b ∧ '?' ∉ a ∧
      parse_item_id (some s) = .ok (some a, some b)) ∧
    (∀ s : Str, '/' ∉ s → parse_node_path (some s) = .error (.invalidNodePath s)) ∧
    (∀ s : Str, '/' ∈ s → ∃ a b, s = a ++ '/' :: b ∧ '/' ∉ a ∧
      parse_node_path (some s) = .ok (some a, some b)) := by
  refine ⟨rfl, rfl, ?_, ?_, ?_, ?_⟩
  · intro s hs
    unfold parse_item_id gStrsplit2
    rcases eq_or_ne s [] with h | h
    · subst h; simp
    · simp only [h, if_false, (breakAtFirst_eq_none_iff '?' s).2 hs]
  · intro s hs
    have hne : s ≠ [] := List.ne_nil_of_mem hs
    obtain ⟨⟨a, b⟩, hab⟩ :=
      Option.ne_none_iff_exists'.1
        (fun h => ((breakAtFirst_eq_none_iff '?' s).1 h) hs)
    obtain ⟨hsplit, hna⟩ := breakAtFirst_eq_some '?' s a b hab
    refine ⟨a, b, hsplit, hna, ?_⟩
    unfold parse_item_id gStrsplit2
    simp only [hne, if_false, hab]
  · intro s hs
    unfold parse_node_path gStrsplit2
    rcases eq_or_ne s [] with h | h
    · subst h; simp
    · simp only [h, if_false, (breakAtFirst_eq_none_iff '/' s).2 hs]
  · intro s hs
    have hne : s ≠ [] := List.ne_nil_of_mem hs
    obtain ⟨⟨a, b⟩, hab⟩ :=
      Option.ne_none_iff_exists'.1
        (fun h => ((breakAtFirst_eq_none_iff '/' s).1 h) hs)
    obtain ⟨hsplit, hna⟩ := breakAtFirst_eq_some '/' s a b hab
    refine ⟨a, b, hsplit, hna, ?_⟩
    unfold parse_node_path gStrsplit2
    simp only [hne, if_false, hab]

theorem C8_parse_errors_witness :
    parse_item_id (some "ab".toList) = .error (.invalidItemId "ab".toList) ∧
    parse_node_path (some "ab".toList) = .error (.invalidNodePath "ab".toList) := by
  exact ⟨C8_parse_errors.2.2.1 "ab".toList (by decide),
    C8_parse_errors.2.2.2.2.1 "ab".toList (by decide)⟩

theorem parse_item_id_some_shape (x : Str) :
    (∃ a b, parse_item_id (some x) = .ok (some a, some b)) ∨
    parse_item_id (some x) = .error (.invalidItemId x) := by
  have hdef : parse_item_id (some x) =
      (match gStrsplit2 '?' x with
        | [a, b] => .ok (some a, some b)
        | _ => .error (.invalidItemId x)) := rfl
  rcases h : gStrsplit2 '?' x with _ | ⟨a, _ | ⟨b, _ | ⟨c, rest⟩⟩⟩ <;> rw [hdef, h]
  · exact Or.inr rfl
  · exact Or.inr rfl
  · exact Or.inl ⟨a, b, rfl⟩
  · exact Or.inr rfl

theorem parse_node_path_some_shape (x : Str) :
    (∃ a b, parse_node_path (some x) = .ok (some a, some b)) ∨
    parse_node_path (some x) = .error (.invalidNodePath x) := by
  have hdef : parse_node_path (some x) =
      (match gStrsplit2 '/' x with
        | [a, b] => .ok (some a, some b)
        | _ => .error (.invalidNodePath x)) := rfl
  rcases h : gStrsplit2 '/' x with _ | ⟨a, _ | ⟨b, _ | ⟨c, rest⟩⟩⟩ <;> rw [hdef, h]
  · exact Or.inr rfl
  · exact Or.inr rfl
  · exact Or.inl ⟨a, b, rfl⟩
  · exact Or.inr rfl

theorem filter_item_id_eq_of_decode (x k nid ctx : Str) (channelId : Option Str)
    (excludeChannelIds : Option (List Str))
    (h : decodeItem x = some (k, nid, ctx)) :
    filter_item_id_for_channel x channelId excludeChannelIds =
      match channelId with
      | some ch => decide (ctx = ch) && !decide (nid = ctx)
      | none =>
        match excludeChannelIds with
        | none => true
        | some ex => !decide (ctx ∈ ex) := by
  unfold decodeItem at h
  rcases parse_item_id_some_shape x with ⟨a, b, hab⟩ | herr
  · rcases parse_node_path_some_shape a with ⟨p, q, hpq⟩ | herr2
    · simp only [hab, hpq, Option.some.injEq, Prod.mk.injEq] at h
      obtain ⟨hk, hn, hb⟩ := h
      subst hk; subst hn; subst hb
      unfold filter_item_id_for_channel
      simp only [hab, hpq]
      cases channelId with
      | some ch => simp
      | none =>
        cases excludeChannelIds with
        | none => simp
        | some ex => simp
    · simp only [hab, herr2] at h
      exact Option.noConfusion h
  · simp only [herr] at h
    exact Option.noConfusion h

/-- C3: filter_item_ids preserves input order (its result is a sublist of the
input), and on lists of well-formed item ids it keeps exactly: for a channel
scope, the items whose decoded origin channel equals the channel id and that
are not that channel's root node; for the global scope with no or an empty
exclude list, every item; for the global scope with an exclude list, the
items whose origin channel is not in the list, root nodes of excluded
channels not being re-admitted. -/
theorem C3_filter_item_ids (l : List Str)
    (hwf : ∀ x ∈ l, (decodeItem x).isSome = true) :
    (∀ scope excl, (filter_item_ids l scope excl).Sublist l) ∧
    (∀ ch excl, filter_item_ids l (some ch) excl =
      l.filter (fun x =>
        match decodeItem x with
        | some (_, nid, ctx) => decide (ctx = ch) && !decide (nid = ctx)
        | none => false)) ∧
    filter_item_ids l none none = l ∧
    filter_item_ids l none (some []) = l ∧
    (∀ es, filter_item_ids l none (some es) =
      l.filter (fun x =>
        match decodeItem x with
        | some (_, _, ctx) => !decide (ctx ∈ es)
        | none => false)) := by
  have hdec : ∀ x ∈ l, ∃ k nid ctx, decodeItem x = some (k, nid, ctx) := by
    intro x hx
    obtain ⟨⟨k, nid, ctx⟩, hk⟩ := Option.isSome_iff_exists.1 (hwf x hx)
    exact ⟨k, nid, ctx, hk⟩
  refine ⟨?_, ?_, ?_, ?_, ?_⟩
  · intro scope excl
    exact List.filter_sublist l
  · intro ch excl
    apply List.filter_congr
    intro x hx
    obtain ⟨k, nid, ctx, hk⟩ := hdec x hx
    rw [filter_item_id_eq_of_decode x k nid ctx (some ch) excl hk, hk]
  · unfold filter_item_ids
    rw [List.filter_eq_self]
    intro x hx
    obtain ⟨k, nid, ctx, hk⟩ := hdec x hx
    rw [filter_item_id_eq_of_decode x k nid ctx none none hk]
  · unfold filter_item_ids
    rw [List.filter_eq_self]
    intro x hx
    obtain ⟨k, nid, ctx, hk⟩ := hdec x hx
    rw [filter_item_id_eq_of_decode x k nid ctx none (some []) hk]
    simp
  · intro es
    apply List.filter_congr
    intro x hx
    obtain ⟨k, nid, ctx, hk⟩ := hdec x hx
    rw [filter_item_id_eq_of_decode x k nid ctx none (some es) hk, hk]

theorem C3_filter_item_ids_witness :
    filter_item_ids ["math/math?math".toList, "math/algebra?math".toList]
        (some "math".toList) none = ["math/algebra?math".toList] ∧
    filter_item_ids ["a/1?a".toList, "b/2?b".toList] none (some ["b".toList]) =
      ["a/1?a".toList] := by
  have h1 := (C3_filter_item_ids
    ["math/math?math".toList, "math/algebra?math".toList] (by decide)).2.1
    "math".toList none
  have h2 := (C3_filter_item_ids ["a/1?a".toList, "b/2?b".toList]
    (by decide)).2.2.2.2 ["b".toList]
  refine ⟨?_, ?_⟩
  · rw [h1]; rfl
  · rw [h2]; rfl

/-- C7: object-path resolution is a stateless pattern match — the exact base
path resolves to no channel id (global scope), a child path of the form
base/channel_ followed by an id resolves to that id, any other path resolves
to no channel id, subtree dispatch returns a handler exactly for present
channel_-prefixed child nodes asked for the search-provider interface, and
child enumeration always returns no children. -/
theorem C7_object_path_routing :
    (∀ basePath : Str, get_channel_id_for_object_path basePath basePath = none) ∧
    (∀ basePath id : Str,
      get_channel_id_for_object_path basePath
        (basePath ++ "/channel_".toList ++ id) = some id) ∧
    (∀ basePath p : Str, (∀ id : Str, p ≠ basePath ++ "/channel_".toList ++ id) →
      get_channel_id_for_object_path basePath p = none) ∧
    (∀ n iface : Str, subtree_dispatch (some n) iface = true ↔
      ("channel_".toList.isPrefixOf n = true ∧ iface = searchProviderInterfaceName)) ∧
    (∀ iface : Str, subtree_dispatch none iface = false) ∧
    subtree_enumerate = ([] : List Str) := by
  refine ⟨?_, ?_, ?_, ?_, ?_, rfl⟩
  · intro basePath
    have hnp : ¬ (channelObjectPathPrefix basePath <+: basePath) := by
      intro hp
      have hlen := hp.length_le
      simp [channelObjectPathPrefix] at hlen
    simp [get_channel_id_for_object_path, List.isPrefixOf_iff_prefix, hnp]
  · intro basePath id
    have hassoc : basePath ++ "/channel_".toList ++ id =
        channelObjectPathPrefix basePath ++ id := by
      simp [channelObjectPathPrefix]
    rw [hassoc]
    have hp : channelObjectPathPrefix basePath <+:
        channelObjectPathPrefix basePath ++ id := List.prefix_append _ _
    simp [get_channel_id_for_object_path, List.isPrefixOf_iff_prefix, hp,
      List.drop_left]
  · intro basePath p hne
    have hnp : ¬ (channelObjectPathPrefix basePath <+: p) := by
      intro hp
      obtain ⟨t, ht⟩ := hp
      exact hne t (by rw [← ht]; simp [channelObjectPathPrefix])
    simp [get_channel_id_for_object_path, List.isPrefixOf_iff_prefix, hnp]
  · intro n iface
    simp [subtree_dispatch]
  · intro iface
    rfl

theorem C7_object_path_routing_witness :
    get_channel_id_for_object_path basePath0 basePath0 = none ∧
    get_channel_id_for_object_path basePath0
      (basePath0 ++ "/channel_".toList ++ "abc".toList) = some "abc".toList ∧
    get_channel_id_for_object_path basePath0 "/other/path".toList = none ∧
    subtree_dispatch (some "channel_abc".toList) searchProviderInterfaceName = true := by
  refine ⟨C7_object_path_routing.1 basePath0,
    C7_object_path_routing.2.1 basePath0 "abc".toList,
    C7_object_path_routing.2.2.1 basePath0 "/other/path".toList ?_, ?_⟩
  · intro id h
    have hl := congrArg List.length h
    simp [basePath0] at hl
  exact (C7_object_path_routing.2.2.2.1 "channel_abc".toList
    searchProviderInterfaceName).2 ⟨by decide, rfl⟩

/-- C9: build_kolibri_dispatch_uri fails with WRONG_CHANNEL when the decoded
origin channel of the item id disagrees with the channel id, and otherwise
composes the URI scheme://channelId/nodePath?search=query, omitting the path
segment when the item id is absent; in particular (sci, video/42?sci, newton)
yields host sci, path /video/42 and query search=newton, while
(sci, video/42?other, x) fails with WRONG_CHANNEL. -/
theorem C9_build_dispatch_uri :
    (∀ ch iid q path ctx : Str,
      parse_item_id (some iid) = .ok (some path, some ctx) → ctx ≠ ch →
      build_kolibri_dispatch_uri (some ch) (some iid) (some q) =
        .error (.wrongChannel iid ch)) ∧
    (∀ ch iid q path : Str,
      parse_item_id (some iid) = .ok (some path, some ch) →
      build_kolibri_dispatch_uri (some ch) (some iid) (some q) =
        .ok ⟨DISPATCH_URI_SCHEME, some ch, '/' :: path,
          some ("search=".toList ++ q)⟩) ∧
    (∀ ch q : Str,
      build_kolibri_dispatch_uri (some ch) none (some q) =
        .ok ⟨DISPATCH_URI_SCHEME, some ch, [], some ("search=".toList ++ q)⟩) ∧
    build_kolibri_dispatch_uri (some "sci".toList) (some "video/42?sci".toList)
        (some "newton".toList) =
      .ok ⟨DISPATCH_URI_SCHEME, some "sci".toList, "/video/42".toList,
        some "search=newton".toList⟩ ∧
    build_kolibri_dispatch_uri (some "sci".toList) (some "video/42?other".toList)
        (some "x".toList) =
      .error (.wrongChannel "video/42?other".toList "sci".toList) := by
  refine ⟨?_, ?_, ?_, rfl, rfl⟩
  · intro ch iid q path ctx hp hne
    unfold build_kolibri_dispatch_uri
    simp only [hp]
    rw [if_pos]
    · rfl
    · refine ⟨rfl, rfl, ?_⟩
      intro hcc
      exact hne (by simpa using hcc)
  · intro ch iid q path hp
    unfold build_kolibri_dispatch_uri
    simp only [hp]
    rw [if_neg]
    · rfl
    · rintro ⟨-, -, hcc⟩
      exact hcc rfl
  · intro ch q
    rfl

theorem C9_build_dispatch_uri_witness :
    build_kolibri_dispatch_uri (some "sci".toList) (some "video/42?other".toList)
        (some "x".toList) =
      .error (.wrongChannel "video/42?other".toList "sci".toList) ∧
    build_kolibri_dispatch_uri (some "sci".toList) (some "video/42?sci".toList)
        (some "newton".toList) =
      .ok ⟨DISPATCH_URI_SCHEME, some "sci".toList, "/video/42".toList,
        some "search=newton".toList⟩ := by
  refine ⟨C9_build_dispatch_uri.1 "sci".toList "video/42?other".toList
      "x".toList "video/42".toList "other".toList (by rfl) (by decide), ?_⟩
  exact C9_build_dispatch_uri.2.1 "sci".toList "video/42?sci".toList
    "newton".toList "video/42".toList (by rfl)

/-- C10: with an absent channel id (global scope on the base path),
build_kolibri_dispatch_uri never fails with WRONG_CHANNEL for any item id,
and it succeeds for every item id that parses, regardless of the item's
origin channel. -/
theorem C10_no_wrong_channel_without_channel :
    (∀ itemId query : Option Str,
      resultIsWrongChannel (build_kolibri_dispatch_uri none itemId query) = false) ∧
    (∀ iid : Str, ∀ q : Option Str,
      exceptIsOk (parse_item_id (some iid)) = true →
      exceptIsOk (build_kolibri_dispatch_uri none (some iid) q) = true) := by
  have hbuild : ∀ iid : Str, ∀ q : Option Str, ∀ a b : Str,
      parse_item_id (some iid) = .ok (some a, some b) →
      build_kolibri_dispatch_uri none (some iid) q =
        .ok ⟨DISPATCH_URI_SCHEME, none, '/' :: a,
          q.map (fun s => "search=".toList ++ s)⟩ := by
    intro iid q a b hp
    unfold build_kolibri_dispatch_uri
    simp only [hp]
    rw [if_neg]
    · rfl
    · rintro ⟨-, hch, -⟩
      simp at hch
  constructor
  · intro itemId query
    cases itemId with
    | none => rfl
    | some iid =>
      rcases parse_item_id_some_shape iid with ⟨a, b, hp⟩ | herr
      · rw [hbuild iid query a b hp]
        rfl
      · unfold build_kolibri_dispatch_uri
        simp only [herr]
        rfl
  · intro iid q hok
    rcases parse_item_id_some_shape iid with ⟨a, b, hp⟩ | herr
    · rw [hbuild iid q a b hp]
      rfl
    · rw [herr] at hok
      exact absurd hok (by simp [exceptIsOk])

theorem C10_no_wrong_channel_without_channel_witness :
    resultIsWrongChannel (build_kolibri_dispatch_uri none
      (some "video/42?sci".toList) (some "x".toList)) = false ∧
    exceptIsOk (parse_item_id (some "video/42?sci".toList)) = true ∧
    exceptIsOk (build_kolibri_dispatch_uri none (some "video/42?sci".toList)
      (some "x".toList)) = true := by
  refine ⟨C10_no_wrong_channel_without_channel.1 (some "video/42?sci".toList)
      (some "x".toList), by rfl, ?_⟩
  exact C10_no_wrong_channel_without_channel.2 "video/42?sci".toList
    (some "x".toList) (by rfl)

theorem deliver_error_copies_spec (e : Str) :
    ∀ (subs : List Subscriber) (heap : List GVal),
      deliver_error_copies heap subs e =
        (heap ++ List.replicate subs.length (GVal.gerror e),
         (subs.zip (List.range' heap.length subs.length)).map
           (fun p => PendingCb.mk p.1 p.2)) := by
  intro subs
  induction subs with
  | nil => intro heap; simp [deliver_error_copies]
  | cons s rest ih =>
    intro heap
    simp only [deliver_error_copies, ih (heap ++ [GVal.gerror e]),
      List.length_cons, List.length_append, List.length_singleton,
      List.replicate_succ, List.range'_succ, List.zip_cons_cons, List.map_cons]
    simp [List.append_assoc]

/-- C4: when a multiplexer completes with an error, every attached task
receives an independently copied instance of that error (a fresh heap cell
per task, all cells distinct and distinct from every pre-existing cell, each
holding the error value), in attachment order; when it completes with a
payload, every attached task receives a reference to the one shared payload;
in both cases the next_tasks list is empty immediately after the broadcast. -/
theorem C4_completion_broadcast (heap : List GVal) (mux : Mux) (e : Str) (ref : Nat) :
    (∀ heap' mux' cbs,
      kolibri_task_multiplexer_return_error_to_next heap mux e = (heap', mux', cbs) →
      mux'.nextTasks = [] ∧
      cbs.map PendingCb.sub = mux.nextTasks ∧
      (∀ cb ∈ cbs, heap'.get? cb.ref = some (GVal.gerror e)) ∧
      (cbs.map PendingCb.ref).Nodup ∧
      (∀ cb ∈ cbs, heap.length ≤ cb.ref)) ∧
    (∀ mux' cbs,
      kolibri_task_multiplexer_return_variant_to_next mux ref = (mux', cbs) →
      mux'.nextTasks = [] ∧
      cbs = mux.nextTasks.map (fun s => PendingCb.mk s ref)) := by
  constructor
  · intro heap' mux' cbs heq
    unfold kolibri_task_multiplexer_return_error_to_next at heq
    rw [deliver_error_copies_spec] at heq
    injection heq with h1 h2
    injection h2 with h2 h3
    subst h1; subst h2; subst h3
    refine ⟨rfl, ?_, ?_, ?_, ?_⟩
    · rw [List.map_map]
      have : (PendingCb.sub ∘ fun p : Subscriber × Nat => PendingCb.mk p.1 p.2) =
          Prod.fst := rfl
      rw [this]
      exact List.map_fst_zip _ _ (by rw [List.length_range'])
    · intro cb hcb
      obtain ⟨⟨sb, r⟩, hmem, hcb'⟩ := List.mem_map.1 hcb
      subst hcb'
      have hr := (List.of_mem_zip hmem).2
      obtain ⟨hle, hlt⟩ := List.mem_range'_1.1 hr
      show (heap ++ List.replicate mux.nextTasks.length (GVal.gerror e)).get? r =
        some (GVal.gerror e)
      rw [List.get?_eq_getElem?, List.getElem?_append_right hle]
      simp only [List.getElem?_replicate]
      rw [if_pos (by omega)]
    · rw [List.map_map]
      have : (PendingCb.ref ∘ fun p : Subscriber × Nat => PendingCb.mk p.1 p.2) =
          Prod.snd := rfl
      rw [this]
      rw [List.map_snd_zip _ _ (by rw [List.length_range'])]
      exact List.nodup_range' ..
    · intro cb hcb
      obtain ⟨⟨sb, r⟩, hmem, hcb'⟩ := List.mem_map.1 hcb
      subst hcb'
      exact (List.mem_range'_1.1 (List.of_mem_zip hmem).2).1
  · intro mux' cbs heq
    injection heq with h1 h2
    subst h1; subst h2
    exact ⟨rfl, rfl⟩

theorem C4_completion_broadcast_witness :
    ∃ heap' mux' cbs,
      kolibri_task_multiplexer_return_error_to_next []
        ⟨true, false, [⟨1, [], .initial, 0⟩, ⟨2, [], .initial, 0⟩]⟩
        "boom".toList = (heap', mux', cbs) ∧
      mux'.nextTasks = [] ∧
      cbs.map PendingCb.sub = [⟨1, [], .initial, 0⟩, ⟨2, [], .initial, 0⟩] ∧
      (∀ cb ∈ cbs, heap'.get? cb.ref = some (GVal.gerror "boom".toList)) ∧
      (cbs.map PendingCb.ref).Nodup := by
  obtain ⟨h1, -⟩ := C4_completion_broadcast []
    ⟨true, false, [⟨1, [], .initial, 0⟩, ⟨2, [], .initial, 0⟩]⟩ "boom".toList 0
  obtain ⟨hm, hsub, hget, hnd, -⟩ :=
    h1 [GVal.gerror "boom".toList, GVal.gerror "boom".toList]
      ⟨true, false, []⟩ [⟨⟨1, [], .initial, 0⟩, 0⟩, ⟨⟨2, [], .initial, 0⟩, 1⟩] rfl
  exact ⟨_, _, _, rfl, hm, hsub, hget, hnd⟩

theorem set_append_len_eq {α : Type} (l : List α) (x v : α) (n : Nat)
    (hn : n = l.length) : (l ++ [x]).set n v = l ++ [v] := by
  subst hn
  induction l with
  | nil => rfl
  | cons a t ih => simpa [List.set] using ih

theorem getD_append_len_eq {α : Type} (l : List α) (x : α) (n : Nat) (d : α)
    (hn : n = l.length) : (l ++ [x]).getD n d = x := by
  subst hn
  simp [List.getD_eq_getElem?_getD, List.getElem?_append_right (le_refl l.length)]

theorem getD_append_lt {α : Type} (l l2 : List α) (i : Nat) (d : α)
    (h : i < l.length) : (l ++ l2).getD i d = l.getD i d := by
  simp [List.getD_eq_getElem?_getD, List.getElem?_append, h]

theorem getD_set_ne {α : Type} (l : List α) (i j : Nat) (v d : α) (h : i ≠ j) :
    (l.set j v).getD i d = l.getD i d := by
  simp [List.getD_eq_getElem?_getD, List.getElem?_set_ne (Ne.symm h)]

theorem getD_set_self {α : Type} (l : List α) (j : Nat) (v d : α)
    (h : j < l.length) : (l.set j v).getD j d = v := by
  simp [List.getD_eq_getElem?_getD, List.getElem?_set_self, h]

theorem gsm_none (st : ProviderState) (query : Str) (h : st.current = none) :
    kolibri_gnome_search_provider_get_search_multiplexer st query =
      ({ st with
          muxes := st.muxes ++ [kolibri_task_multiplexer_new],
          current := some st.muxes.length,
          currentQuery := some query },
       st.muxes.length, true) := by
  unfold kolibri_gnome_search_provider_get_search_multiplexer
  rw [h]

theorem gsm_attach (st : ProviderState) (query : Str) (m : Nat)
    (h : st.current = some m)
    (hc : kolibri_gnome_search_provider_can_attach_search st query = true) :
    kolibri_gnome_search_provider_get_search_multiplexer st query =
      (st, m, false) := by
  unfold kolibri_gnome_search_provider_get_search_multiplexer
  rw [h]
  simp only [hc, if_true]

theorem gsm_replace (st : ProviderState) (query : Str) (m : Nat)
    (h : st.current = some m)
    (hc : kolibri_gnome_search_provider_can_attach_search st query = false) :
    kolibri_gnome_search_provider_get_search_multiplexer st query =
      ({ st with
          muxes := (st.muxes.set m
            (kolibri_task_multiplexer_cancel (st.muxes.getD m default))) ++
            [kolibri_task_multiplexer_new],
          current := some st.muxes.length,
          currentQuery := some query },
       st.muxes.length, true) := by
  unfold kolibri_gnome_search_provider_get_search_multiplexer
  rw [h]
  simp only [hc, Bool.false_eq_true, if_false]

theorem create_search_task_none (st : ProviderState) (p : Str) (c : Nat)
    (op : SearchOp) (terms : List Str) (h : st.current = none) :
    create_search_task st p c op terms =
      { st with
          muxes := st.muxes ++ [⟨true, false, [⟨c, p, op, st.muxes.length⟩]⟩],
          current := some st.muxes.length,
          currentQuery := some (joinSpace terms),
          upstream := st.upstream ++ [(st.muxes.length, joinSpace terms)] } := by
  unfold create_search_task
  simp only [gsm_none st (joinSpace terms) h]
  rw [getD_append_len_eq _ _ _ _ rfl, set_append_len_eq _ _ _ _ rfl]
  rfl

theorem create_search_task_attach (st : ProviderState) (p : Str) (c : Nat)
    (op : SearchOp) (terms : List Str) (m : Nat) (h : st.current = some m)
    (hc : kolibri_gnome_search_provider_can_attach_search st
      (joinSpace terms) = true) :
    create_search_task st p c op terms =
      { st with
          muxes := st.muxes.set m (kolibri_task_multiplexer_add_next
            (st.muxes.getD m default) ⟨c, p, op, m⟩) } := by
  unfold create_search_task
  simp only [gsm_attach st (joinSpace terms) m h hc]
  rfl

theorem create_search_task_replace (st : ProviderState) (p : Str) (c : Nat)
    (op : SearchOp) (terms : List Str) (m : Nat) (h : st.current = some m)
    (hc : kolibri_gnome_search_provider_can_attach_search st
      (joinSpace terms) = false) :
    create_search_task st p c op terms =
      { st with
          muxes := (st.muxes.set m
            (kolibri_task_multiplexer_cancel (st.muxes.getD m default))) ++
            [⟨true, false, [⟨c, p, op, st.muxes.length⟩]⟩],
          current := some st.muxes.length,
          currentQuery := some (joinSpace terms),
          upstream := st.upstream ++ [(st.muxes.length, joinSpace terms)] } := by
  unfold create_search_task
  simp only [gsm_replace st (joinSpace terms) m h hc]
  rw [getD_append_len_eq _ _ _ _ (List.length_set ..).symm,
    set_append_len_eq _ _ _ _ (List.length_set ..).symm]
  rfl

theorem can_attach_after_create (st : ProviderState) (p : Str) (c : Nat)
    (op : SearchOp) (terms : List Str) :
    kolibri_gnome_search_provider_can_attach_search
      (create_search_task st p c op terms) (joinSpace terms) = true := by
  rcases hcur : st.current with _ | m
  · rw [create_search_task_none st p c op terms hcur]
    unfold kolibri_gnome_search_provider_can_attach_search
    dsimp only
    rw [getD_append_len_eq _ _ _ _ rfl]
    simp [kolibri_task_multiplexer_get_completed]
  · rcases hc : kolibri_gnome_search_provider_can_attach_search st
        (joinSpace terms) with _ | _
    · rw [create_search_task_replace st p c op terms m hcur hc]
      unfold kolibri_gnome_search_provider_can_attach_search
      dsimp only
      rw [getD_append_len_eq _ _ _ _ (List.length_set ..).symm]
      simp [kolibri_task_multiplexer_get_completed]
    · rw [create_search_task_attach st p c op terms m hcur hc]
      unfold kolibri_gnome_search_provider_can_attach_search at hc ⊢
      rw [hcur] at hc ⊢
      dsimp only at hc ⊢
      rw [Bool.and_eq_true] at hc
      obtain ⟨hcomp, hq⟩ := hc
      rcases Nat.lt_or_ge m st.muxes.length with hm | hm
      · rw [getD_set_self _ _ _ _ hm]
        rw [Bool.and_eq_true]
        refine ⟨?_, hq⟩
        simpa [kolibri_task_multiplexer_get_completed,
          kolibri_task_multiplexer_add_next] using hcomp
      · rw [List.set_eq_of_length_le hm]
        rw [Bool.and_eq_true]
        exact ⟨hcomp, hq⟩

theorem return_error_to_next_closed (heap : List GVal) (mux : Mux) (e : Str) :
    kolibri_task_multiplexer_return_error_to_next heap mux e =
      (heap ++ List.replicate mux.nextTasks.length (GVal.gerror e),
       { mux with nextTasks := [] },
       (mux.nextTasks.zip (List.range' heap.length mux.nextTasks.length)).map
         (fun pr => PendingCb.mk pr.1 pr.2)) := by
  unfold kolibri_task_multiplexer_return_error_to_next
  rw [deliver_error_copies_spec]

theorem return_variant_to_next_closed (mux : Mux) (ref : Nat) :
    kolibri_task_multiplexer_return_variant_to_next mux ref =
      ({ mux with nextTasks := [] },
       mux.nextTasks.map (fun s => PendingCb.mk s ref)) := rfl

theorem invocation_task_ready_cb_shape (basePath : Str) (st : ProviderState)
    (cb : PendingCb) :
    (invocation_task_ready_cb basePath st cb).muxes = st.muxes ∧
    (invocation_task_ready_cb basePath st cb).current = st.current ∧
    (invocation_task_ready_cb basePath st cb).currentQuery = st.currentQuery ∧
    (invocation_task_ready_cb basePath st cb).upstream = st.upstream ∧
    (invocation_task_ready_cb basePath st cb).heap = st.heap ∧
    (invocation_task_ready_cb basePath st cb).pendingCbs = st.pendingCbs := by
  unfold invocation_task_ready_cb
  dsimp only
  split
  · exact ⟨rfl, rfl, rfl, rfl, rfl, rfl⟩
  · split
    · exact ⟨rfl, rfl, rfl, rfl, rfl, rfl⟩
    · exact ⟨rfl, rfl, rfl, rfl, rfl, rfl⟩
    · exact ⟨rfl, rfl, rfl, rfl, rfl, rfl⟩

theorem foldl_ready_cb_shape (basePath : Str) :
    ∀ (cbs : List PendingCb) (st : ProviderState),
      ((cbs.foldl (invocation_task_ready_cb basePath) st).muxes = st.muxes) ∧
      ((cbs.foldl (invocation_task_ready_cb basePath) st).current = st.current) ∧
      ((cbs.foldl (invocation_task_ready_cb basePath) st).currentQuery =
        st.currentQuery) ∧
      ((cbs.foldl (invocation_task_ready_cb basePath) st).upstream =
        st.upstream) ∧
      ((cbs.foldl (invocation_task_ready_cb basePath) st).heap = st.heap) ∧
      ((cbs.foldl (invocation_task_ready_cb basePath) st).pendingCbs =
        st.pendingCbs) := by
  intro cbs
  induction cbs with
  | nil =>
    intro st
    exact ⟨rfl, rfl, rfl, rfl, rfl, rfl⟩
  | cons cb rest ih =>
    intro st
    rw [List.foldl_cons]
    obtain ⟨s1, s2, s3, s4, s5, s6⟩ :=
      invocation_task_ready_cb_shape basePath st cb
    obtain ⟨t1, t2, t3, t4, t5, t6⟩ := ih (invocation_task_ready_cb basePath st cb)
    exact ⟨t1.trans s1, t2.trans s2, t3.trans s3, t4.trans s4, t5.trans s5,
      t6.trans s6⟩

theorem foldl_ready_cb_muxes (basePath : Str) (cbs : List PendingCb)
    (st : ProviderState) :
    (cbs.foldl (invocation_task_ready_cb basePath) st).muxes = st.muxes :=
  (foldl_ready_cb_shape basePath cbs st).1

theorem foldl_ready_cb_current (basePath : Str) (cbs : List PendingCb)
    (st : ProviderState) :
    (cbs.foldl (invocation_task_ready_cb basePath) st).current = st.current :=
  (foldl_ready_cb_shape basePath cbs st).2.1

theorem foldl_ready_cb_currentQuery (basePath : Str) (cbs : List PendingCb)
    (st : ProviderState) :
    (cbs.foldl (invocation_task_ready_cb basePath) st).currentQuery =
      st.currentQuery :=
  (foldl_ready_cb_shape basePath cbs st).2.2.1

theorem foldl_ready_cb_upstream (basePath : Str) (cbs : List PendingCb)
    (st : ProviderState) :
    (cbs.foldl (invocation_task_ready_cb basePath) st).upstream = st.upstream :=
  (foldl_ready_cb_shape basePath cbs st).2.2.2.1

theorem upstream_resolve_shape (basePath : Str) (st : ProviderState) (m : Nat)
    (result : Except Str (List Str)) :
    (upstream_resolve basePath st m result).current = st.current ∧
    (upstream_resolve basePath st m result).currentQuery = st.currentQuery ∧
    (upstream_resolve basePath st m result).upstream = st.upstream ∧
    ((upstream_resolve basePath st m result).muxes = st.muxes ∨
     ∃ mux, st.muxes.get? m = some mux ∧
       (upstream_resolve basePath st m result).muxes =
         st.muxes.set m ⟨false, mux.cancelled, []⟩) := by
  unfold upstream_resolve
  rcases hm : st.muxes.get? m with _ | mux
  · exact ⟨rfl, rfl, rfl, Or.inl rfl⟩
  · obtain ⟨alive, cane, tasks⟩ := mux
    rcases alive with _ | _
    · simp
    · rcases cane with _ | _
      · rcases result with e | ids
        · refine ⟨?_, ?_, ?_, Or.inr ⟨⟨true, false, tasks⟩, rfl, ?_⟩⟩ <;>
            simp [return_error_to_next_closed, foldl_ready_cb_muxes,
              foldl_ready_cb_current, foldl_ready_cb_currentQuery,
              foldl_ready_cb_upstream]
        · refine ⟨?_, ?_, ?_, Or.inr ⟨⟨true, false, tasks⟩, rfl, ?_⟩⟩ <;>
            simp [return_variant_to_next_closed, foldl_ready_cb_muxes,
              foldl_ready_cb_current, foldl_ready_cb_currentQuery,
              foldl_ready_cb_upstream]
      · refine ⟨?_, ?_, ?_, Or.inr ⟨⟨true, true, tasks⟩, rfl, ?_⟩⟩ <;>
          simp [return_error_to_next_closed]

theorem process_pending_cb_shape (basePath : Str) (st : ProviderState) :
    (process_pending_cb basePath st).muxes = st.muxes ∧
    (process_pending_cb basePath st).current = st.current ∧
    (process_pending_cb basePath st).currentQuery = st.currentQuery ∧
    (process_pending_cb basePath st).upstream = st.upstream := by
  unfold process_pending_cb
  rcases hq : st.pendingCbs with _ | ⟨cb, rest⟩
  · exact ⟨rfl, rfl, rfl, rfl⟩
  · obtain ⟨s1, s2, s3, s4, -, -⟩ :=
      invocation_task_ready_cb_shape basePath { st with pendingCbs := rest } cb
    exact ⟨s1, s2, s3, s4⟩

theorem inv_initState : ProviderInv initState := by
  constructor
  · intro m h
    simp [initState] at h
  · intro i h
    simp [initState] at h

theorem inv_create (st : ProviderState) (p : Str) (c : Nat) (op : SearchOp)
    (terms : List Str) (h : ProviderInv st) :
    ProviderInv (create_search_task st p c op terms) := by
  obtain ⟨h1, h2⟩ := h
  rcases hcur : st.current with _ | m
  · rw [create_search_task_none st p c op terms hcur]
    constructor
    · intro m' hm'
      simp only [Option.some.injEq] at hm'
      subst hm'
      simp
    · intro i hi hne
      simp only [List.length_append, List.length_singleton] at hi
      have hilt : i < st.muxes.length := by
        rcases Nat.lt_or_ge i st.muxes.length with hh | hh
        · exact hh
        · exfalso
          exact hne (by simp only [Option.some.injEq]; omega)
      rw [getD_append_lt _ _ _ _ hilt]
      exact h2 i hilt (by rw [hcur]; simp)
  · rcases hc : kolibri_gnome_search_provider_can_attach_search st
        (joinSpace terms) with _ | _
    · rw [create_search_task_replace st p c op terms m hcur hc]
      constructor
      · intro m' hm'
        simp only [Option.some.injEq] at hm'
        subst hm'
        simp
      · intro i hi hne
        simp only [List.length_append, List.length_singleton,
          List.length_set] at hi
        have hilt : i < st.muxes.length := by
          rcases Nat.lt_or_ge i st.muxes.length with hh | hh
          · exact hh
          · exfalso
            exact hne (by simp only [Option.some.injEq]; omega)
        rw [getD_append_lt _ _ _ _ (by simpa using hilt)]
        rcases eq_or_ne i m with him | him
        · subst him
          rw [getD_set_self _ _ _ _ hilt]
          exact Or.inl rfl
        · rw [getD_set_ne _ _ _ _ _ him]
          exact h2 i hilt (by rw [hcur]; simp [Ne.symm him])
    · rw [create_search_task_attach st p c op terms m hcur hc]
      constructor
      · intro m' hm'
        have := h1 m' hm'
        simpa using this
      · intro i hi hne
        simp only [List.length_set] at hi
        have him : i ≠ m := by
          intro hh
          subst hh
          exact hne hcur
        rw [getD_set_ne _ _ _ _ _ him]
        exact h2 i hi hne

theorem inv_resolve (basePath : Str) (st : ProviderState) (m : Nat)
    (result : Except Str (List Str)) (h : ProviderInv st) :
    ProviderInv (upstream_resolve basePath st m result) := by
  obtain ⟨h1, h2⟩ := h
  obtain ⟨hcur, -, -, hmux⟩ := upstream_resolve_shape basePath st m result
  rcases hmux with hmux | ⟨mux, hget, hmux⟩
  · constructor
    · intro m' hm'
      rw [hcur] at hm'
      rw [hmux]
      exact h1 m' hm'
    · intro i hi hne
      rw [hmux] at hi ⊢
      rw [hcur] at hne
      exact h2 i hi hne
  · have hmlt : m < st.muxes.length := (List.get?_eq_some.1 hget).1
    constructor
    · intro m' hm'
      rw [hcur] at hm'
      rw [hmux, List.length_set]
      exact h1 m' hm'
    · intro i hi hne
      rw [hmux, List.length_set] at hi
      rw [hcur] at hne
      rw [hmux]
      rcases eq_or_ne i m with him | him
      · subst him
        rw [getD_set_self _ _ _ _ hmlt]
        exact Or.inr rfl
      · rw [getD_set_ne _ _ _ _ _ him]
        exact h2 i hi hne

theorem inv_process (basePath : Str) (st : ProviderState) (h : ProviderInv st) :
    ProviderInv (process_pending_cb basePath st) := by
  obtain ⟨h1, h2⟩ := h
  obtain ⟨hmux, hcur, -, -⟩ := process_pending_cb_shape basePath st
  constructor
  · intro m' hm'
    rw [hcur] at hm'
    rw [hmux]
    exact h1 m' hm'
  · intro i hi hne
    rw [hmux] at hi ⊢
    rw [hcur] at hne
    exact h2 i hi hne

theorem reachable_inv (basePath : Str) (st : ProviderState)
    (h : Reachable basePath st) : ProviderInv st := by
  induction h with
  | init => exact inv_initState
  | step hr hs ih =>
    cases hs with
    | search objectPath callId op terms => exact inv_create _ _ _ _ _ ih
    | resolve m result => exact inv_resolve _ _ _ _ ih
    | processCb => exact inv_process _ _ ih

/-- C1: for every inbound search call, a new upstream GetItemIdsForSearch
call is issued iff there is no current multiplexer, or the current one is
completed, or its recorded query differs from the call's space-joined query;
otherwise the call is attached to the existing multiplexer and no upstream
call is made; two calls with an identical query arriving in a row trigger
exactly one upstream call for the pair; and in every reachable state at most
one live (uncancelled, not yet completed) multiplexer exists. -/
theorem C1_search_coordinator :
    (∀ (st : ProviderState) (objectPath : Str) (callId : Nat) (op : SearchOp)
        (terms : List Str),
      ((create_search_task st objectPath callId op terms).upstream =
          st.upstream ++
            [((kolibri_gnome_search_provider_get_search_multiplexer st
                (joinSpace terms)).2.1, joinSpace terms)] ↔
        (st.current = none ∨ ∃ m, st.current = some m ∧
          (kolibri_task_multiplexer_get_completed (st.muxes.getD m default) = true ∨
           st.currentQuery ≠ some (joinSpace terms))))) ∧
    (∀ (st : ProviderState) (objectPath : Str) (callId : Nat) (op : SearchOp)
        (terms : List Str) (m : Nat),
      st.current = some m →
      kolibri_task_multiplexer_get_completed (st.muxes.getD m default) = false →
      st.currentQuery = some (joinSpace terms) →
      create_search_task st objectPath callId op terms =
        { st with muxes := st.muxes.set m (kolibri_task_multiplexer_add_next
            (st.muxes.getD m default) ⟨callId, objectPath, op, m⟩) }) ∧
    (∀ (st : ProviderState) (p1 p2 : Str) (c1 c2 : Nat) (op1 op2 : SearchOp)
        (terms : List Str),
      (create_search_task (create_search_task st p1 c1 op1 terms) p2 c2 op2
          terms).upstream =
        (create_search_task st p1 c1 op1 terms).upstream) ∧
    (∀ (basePath : Str) (st : ProviderState), Reachable basePath st →
      ∀ i j, i < st.muxes.length → j < st.muxes.length →
      muxLive (st.muxes.getD i default) = true →
      muxLive (st.muxes.getD j default) = true → i = j) := by
  refine ⟨?_, ?_, ?_, ?_⟩
  · intro st objectPath callId op terms
    rcases hcur : st.current with _ | m
    · rw [create_search_task_none st objectPath callId op terms hcur,
        gsm_none st (joinSpace terms) hcur]
      simp
    · rcases hc : kolibri_gnome_search_provider_can_attach_search st
          (joinSpace terms) with _ | _
      · rw [create_search_task_replace st objectPath callId op terms m hcur hc,
          gsm_replace st (joinSpace terms) m hcur hc]
        simp only [true_iff]
        unfold kolibri_gnome_search_provider_can_attach_search at hc
        rw [hcur] at hc
        rw [Bool.and_eq_false_iff] at hc
        refine Or.inr ⟨m, rfl, ?_⟩
        rcases hc with hc | hc
        · left
          simpa using hc
        · right
          intro hq
          rw [hq] at hc
          simp at hc
      · rw [create_search_task_attach st objectPath callId op terms m hcur hc]
        unfold kolibri_gnome_search_provider_can_attach_search at hc
        rw [hcur] at hc
        rw [Bool.and_eq_true] at hc
        obtain ⟨hcomp, hq⟩ := hc
        constructor
        · intro habs
          exfalso
          simpa using habs
        · rintro (habs | ⟨m', hm', hdis⟩)
          · exact absurd habs (by simp)
          · injection hm' with hm'
            subst hm'
            rcases hdis with hdis | hdis
            · rw [hdis] at hcomp
              simp at hcomp
            · exact absurd (of_decide_eq_true hq) hdis
  · intro st objectPath callId op terms m hcur hcomp hq
    apply create_search_task_attach st objectPath callId op terms m hcur
    unfold kolibri_gnome_search_provider_can_attach_search
    rw [hcur]
    have hred : (match some m with
        | none => false
        | some m' =>
          !kolibri_task_multiplexer_get_completed (st.muxes.getD m' default) &&
            decide (st.currentQuery = some (joinSpace terms))) =
        (!kolibri_task_multiplexer_get_completed (st.muxes.getD m default) &&
          decide (st.currentQuery = some (joinSpace terms))) := rfl
    rw [hred, hcomp, hq]
    simp
  · intro st p1 p2 c1 c2 op1 op2 terms
    have hca := can_attach_after_create st p1 c1 op1 terms
    rcases hcur1 : (create_search_task st p1 c1 op1 terms).current with _ | m
    · exfalso
      unfold kolibri_gnome_search_provider_can_attach_search at hca
      rw [hcur1] at hca
      exact Bool.noConfusion hca
    · rw [create_search_task_attach _ p2 c2 op2 terms m hcur1 hca]
  · intro basePath st hreach i j hi hj hli hlj
    obtain ⟨-, h2⟩ := reachable_inv basePath st hreach
    have hci : st.current = some i := by
      by_contra hne
      rcases h2 i hi hne with hcc | hdd
      · rw [muxLive, hcc] at hli
        simp at hli
      · rw [muxLive, hdd] at hli
        simp at hli
    have hcj : st.current = some j := by
      by_contra hne
      rcases h2 j hj hne with hcc | hdd
      · rw [muxLive, hcc] at hlj
        simp at hlj
      · rw [muxLive, hdd] at hlj
        simp at hlj
    rw [hci] at hcj
    injection hcj

theorem C1_search_coordinator_witness :
    (create_search_task initState basePath0 1 .initial ["q".toList]).upstream =
      initState.upstream ++
        [((kolibri_gnome_search_provider_get_search_multiplexer initState
            (joinSpace ["q".toList])).2.1, joinSpace ["q".toList])] ∧
    create_search_task c2_st1 basePath0 3 .initial ["q".toList] =
      { c2_st1 with muxes := c2_st1.muxes.set 0 (kolibri_task_multiplexer_add_next
          (c2_st1.muxes.getD 0 default) ⟨3, basePath0, .initial, 0⟩) } ∧
    (0 : Nat) = 0 := by
  refine ⟨?_, ?_, ?_⟩
  · exact (C1_search_coordinator.1 initState basePath0 1 .initial
      ["q".toList]).2 (Or.inl rfl)
  · exact C1_search_coordinator.2.1 c2_st1 basePath0 3 .initial ["q".toList] 0
      (by rfl) (by rfl) (by rfl)
  · exact C1_search_coordinator.2.2.2 basePath0 c2_st1
      (Reachable.step Reachable.init (Step.search initState
        (basePath0 ++ "/channel_a".toList) 1 .initial ["q".toList]))
      0 0 (by decide) (by decide) (by decide) (by decide)

theorem get?_set_append {α : Type} (l : List α) (m : Nat) (v x : α)
    (h : m < l.length) : (l.set m v ++ [x]).get? m = some v := by
  rw [List.get?_eq_getElem?]
  simp [List.getElem?_append, List.length_set, h, List.getElem?_set_self]

theorem getD_of_get? {α : Type} [Inhabited α] (l : List α) (m : Nat) (v : α)
    (h : l.get? m = some v) : l.getD m default = v := by
  rw [List.getD_eq_getElem?_getD, ← List.get?_eq_getElem?, h]
  rfl

theorem get?_append_len {α : Type} (l : List α) (x : α) :
    (l ++ [x]).get? l.length = some x := by
  rw [List.get?_eq_getElem?, List.getElem?_append_right (le_refl l.length)]
  simp

theorem ready_cb_ok (basePath : Str) (st : ProviderState) (s : Subscriber)
    (r m : Nat) (mux : Mux) (ids : List Str)
    (hmid : s.muxId = m)
    (hmget : st.muxes.get? m = some mux)
    (hcanc : mux.cancelled = false)
    (hheap : st.heap.get? r = some (GVal.gvariant ids))
    (hcur : st.current = some m) :
    invocation_task_ready_cb basePath st ⟨s, r⟩ =
      { st with responses := st.responses ++ [(s.callId, Except.ok
          (filter_item_ids ids
            (get_channel_id_for_object_path basePath s.objectPath)
            (match get_channel_id_for_object_path basePath s.objectPath with
             | some _ => none
             | none => some (get_channel_ids_for_invocation_tasks basePath
                 mux.nextTasks))))] } := by
  unfold invocation_task_ready_cb
  simp only [hmid, hmget, hcanc, hheap, hcur, Bool.false_eq_true, if_false,
    getD_of_get? st.muxes m mux hmget]

theorem foldl_ready_cb_ok (basePath : Str) (r m : Nat) (mux : Mux)
    (ids : List Str) :
    ∀ (subs : List Subscriber) (st : ProviderState),
      st.heap.get? r = some (GVal.gvariant ids) →
      st.current = some m →
      st.muxes.get? m = some mux →
      mux.cancelled = false →
      (∀ s ∈ subs, s.muxId = m) →
      (subs.map (fun s => PendingCb.mk s r)).foldl
          (invocation_task_ready_cb basePath) st =
        { st with responses := st.responses ++ subs.map (fun s =>
            (s.callId, Except.ok (filter_item_ids ids
              (get_channel_id_for_object_path basePath s.objectPath)
              (match get_channel_id_for_object_path basePath s.objectPath with
               | some _ => none
               | none => some (get_channel_ids_for_invocation_tasks basePath
                   mux.nextTasks))))) } := by
  intro subs
  induction subs with
  | nil =>
    intro st _ _ _ _ _
    simp
  | cons s rest ih =>
    intro st hheap hcur hmget hcanc hmid
    rw [List.map_cons, List.foldl_cons,
      ready_cb_ok basePath st s r m mux ids (hmid s (List.mem_cons_self s rest))
        hmget hcanc hheap hcur]
    rw [ih ({ st with responses := st.responses ++
        [(s.callId, Except.ok (filter_item_ids ids
          (get_channel_id_for_object_path basePath s.objectPath)
          (match get_channel_id_for_object_path basePath s.objectPath with
           | some _ => none
           | none => some (get_channel_ids_for_invocation_tasks basePath
               mux.nextTasks))))] }) hheap hcur hmget hcanc
      (fun s' hs' => hmid s' (List.mem_cons_of_mem s hs'))]
    simp

/-- C2: for every completed (uncancelled) multiplexer broadcast, each
subscriber's response is the payload filtered for that subscriber's own
channel scope — channel-scoped subscribers with no exclude list (so
independently of each other), and scope-None subscribers with the exclude
set computed from the channel ids of every subscriber attached to the same
multiplexer instance at the time the subscriber's result is filtered (the
ready callbacks run inside the broadcast loop, before next_tasks is
cleared); in particular, in the three-subscriber scenario with scopes
channel a, channel b and global sharing one query, the global caller's
exclude set is {a, b} and it receives only the channel-c item. -/
theorem C2_exclude_set (basePath : Str) (st : ProviderState) (m : Nat)
    (mux : Mux) (ids : List Str)
    (hcur : st.current = some m)
    (hget : st.muxes.get? m = some mux)
    (halive : mux.mainTaskAlive = true)
    (hcanc : mux.cancelled = false)
    (hsubs : ∀ s ∈ mux.nextTasks, s.muxId = m) :
    (upstream_resolve basePath st m (.ok ids)).responses =
      st.responses ++ mux.nextTasks.map (fun s =>
        (s.callId, Except.ok (filter_item_ids ids
          (get_channel_id_for_object_path basePath s.objectPath)
          (match get_channel_id_for_object_path basePath s.objectPath with
           | some _ => none
           | none => some (get_channel_ids_for_invocation_tasks basePath
               mux.nextTasks))))) ∧
    c2_final.responses =
      [(1, .ok ["x/1?a".toList]),
       (2, .ok ["x/2?b".toList]),
       (3, .ok ["x/3?c".toList])] := by
  constructor
  · unfold upstream_resolve
    simp only [hget, halive, hcanc, eq_self_iff_true, if_true,
      Bool.false_eq_true, if_false, return_variant_to_next_closed]
    rw [foldl_ready_cb_ok basePath st.heap.length m mux ids mux.nextTasks
      { st with heap := st.heap ++ [GVal.gvariant ids] }
      (get?_append_len st.heap (GVal.gvariant ids)) hcur hget hcanc hsubs]
  · rfl

theorem C2_exclude_set_witness :
    (upstream_resolve basePath0 c2_st3 0
      (.ok ["x/1?a".toList, "x/2?b".toList, "x/3?c".toList])).responses =
      [(1, .ok ["x/1?a".toList]),
       (2, .ok ["x/2?b".toList]),
       (3, .ok ["x/3?c".toList])] := by
  have h := (C2_exclude_set basePath0 c2_st3 0
    ⟨true, false,
      [⟨1, basePath0 ++ "/channel_a".toList, .initial, 0⟩,
       ⟨2, basePath0 ++ "/channel_b".toList, .initial, 0⟩,
       ⟨3, basePath0, .initial, 0⟩]⟩
    ["x/1?a".toList, "x/2?b".toList, "x/3?c".toList]
    (by decide) (by decide) (by decide) (by decide) (by decide)).1
  rw [h]
  rfl

theorem upstream_resolve_cancelled (basePath : Str) (st : ProviderState)
    (m : Nat) (mux : Mux) (result : Except Str (List Str))
    (hget : st.muxes.get? m = some mux)
    (halive : mux.mainTaskAlive = true)
    (hcanc : mux.cancelled = true) :
    upstream_resolve basePath st m result =
      { st with
          heap := st.heap ++
            List.replicate mux.nextTasks.length (GVal.gerror gioCancelledError),
          pendingCbs := st.pendingCbs ++
            (mux.nextTasks.zip
              (List.range' st.heap.length mux.nextTasks.length)).map
              (fun pr => PendingCb.mk pr.1 pr.2),
          muxes := st.muxes.set m ⟨false, true, []⟩ } := by
  unfold upstream_resolve
  simp only [hget, halive, hcanc, eq_self_iff_true, if_true,
    return_error_to_next_closed]

theorem process_cancelled_queue (basePath : Str) :
    ∀ (cbs : List PendingCb) (st : ProviderState),
      st.pendingCbs = cbs →
      (∀ cb ∈ cbs, ∃ mx, st.muxes.get? cb.sub.muxId = some mx ∧
        mx.cancelled = true) →
      (process_n basePath cbs.length st).responses =
        st.responses ++
          cbs.map (fun cb => (cb.sub.callId, .error gioCancelledError)) ∧
      (process_n basePath cbs.length st).muxes = st.muxes := by
  intro cbs
  induction cbs with
  | nil =>
    intro st hpend hmx
    simp [process_n]
  | cons cb rest ih =>
    intro st hpend hmx
    obtain ⟨mx, hgx, hcx⟩ := hmx cb (List.mem_cons_self cb rest)
    have hstep : process_pending_cb basePath st =
        { st with
            pendingCbs := rest,
            responses := st.responses ++
              [(cb.sub.callId, .error gioCancelledError)] } := by
      unfold process_pending_cb invocation_task_ready_cb
      simp only [hpend, hgx, hcx, eq_self_iff_true, if_true]
    have hlen : (cb :: rest).length = rest.length + 1 := rfl
    rw [hlen]
    show (process_n basePath rest.length (process_pending_cb basePath st)).responses = _ ∧
      (process_n basePath rest.length (process_pending_cb basePath st)).muxes = st.muxes
    rw [hstep]
    obtain ⟨hresp, hmuxes⟩ := ih
      { st with
          pendingCbs := rest,
          responses := st.responses ++
            [(cb.sub.callId, .error gioCancelledError)] }
      rfl
      (by
        intro cb' hcb'
        exact hmx cb' (List.mem_cons_of_mem cb hcb'))
    rw [hresp, hmuxes]
    simp

/-- C6: a search call whose query differs from the pending multiplexer's
query cancels and discards that multiplexer and issues exactly one new
upstream call for the new query; when the cancelled upstream call later
resolves, every subscriber that was attached to the discarded multiplexer
still receives a terminal error completion once the queued callbacks are
dispatched — no first-query caller hangs. -/
theorem C6_discarded_multiplexer_completion
    (basePath : Str) (st : ProviderState) (m : Nat) (mux : Mux)
    (q1 p2 : Str) (c2 : Nat) (op2 : SearchOp) (terms2 : List Str) (e : Str)
    (hcur : st.current = some m)
    (hget : st.muxes.get? m = some mux)
    (halive : mux.mainTaskAlive = true)
    (hq1 : st.currentQuery = some q1)
    (hne : joinSpace terms2 ≠ q1)
    (hpend : st.pendingCbs = [])
    (hsubs : ∀ s ∈ mux.nextTasks, s.muxId = m) :
    (create_search_task st p2 c2 op2 terms2).muxes.get? m =
      some (kolibri_task_multiplexer_cancel mux) ∧
    (create_search_task st p2 c2 op2 terms2).current = some st.muxes.length ∧
    (create_search_task st p2 c2 op2 terms2).upstream =
      st.upstream ++ [(st.muxes.length, joinSpace terms2)] ∧
    (∀ s ∈ mux.nextTasks, ∃ err,
      (s.callId, Except.error err) ∈
        (process_n basePath mux.nextTasks.length
          (upstream_resolve basePath (create_search_task st p2 c2 op2 terms2) m
            (.error e))).responses) := by
  have hmlt : m < st.muxes.length := (List.get?_eq_some.1 hget).1
  have hgetD : st.muxes.getD m default = mux := getD_of_get? _ _ _ hget
  have hqne : ¬ (st.currentQuery = some (joinSpace terms2)) := by
    rw [hq1]
    intro hh
    injection hh with hh
    exact hne hh.symm
  have hc : kolibri_gnome_search_provider_can_attach_search st
      (joinSpace terms2) = false := by
    unfold kolibri_gnome_search_provider_can_attach_search
    rw [hcur]
    have hred : (match some m with
        | none => false
        | some m' =>
          !kolibri_task_multiplexer_get_completed (st.muxes.getD m' default) &&
            decide (st.currentQuery = some (joinSpace terms2))) =
        (!kolibri_task_multiplexer_get_completed (st.muxes.getD m default) &&
          decide (st.currentQuery = some (joinSpace terms2))) := rfl
    rw [hred, decide_eq_false hqne, Bool.and_false]
  have hrepl := create_search_task_replace st p2 c2 op2 terms2 m hcur hc
  have hget2 : (create_search_task st p2 c2 op2 terms2).muxes.get? m =
      some (kolibri_task_multiplexer_cancel mux) := by
    rw [hrepl, hgetD]
    exact get?_set_append _ _ _ _ hmlt
  refine ⟨hget2, by rw [hrepl], by rw [hrepl], ?_⟩
  obtain ⟨st2, hst2⟩ : ∃ st2, create_search_task st p2 c2 op2 terms2 = st2 :=
    ⟨_, rfl⟩
  rw [hst2] at hget2 hrepl ⊢
  have hpend2 : st2.pendingCbs = [] := by
    rw [hrepl]
    exact hpend
  have hres := upstream_resolve_cancelled basePath st2 m
    (kolibri_task_multiplexer_cancel mux) (.error e) hget2
    (by simpa [kolibri_task_multiplexer_cancel] using halive) rfl
  obtain ⟨st3, hst3⟩ : ∃ st3, upstream_resolve basePath st2 m (.error e) = st3 :=
    ⟨_, rfl⟩
  rw [hst3] at hres ⊢
  have hcbs : st3.pendingCbs =
      (mux.nextTasks.zip
        (List.range' st2.heap.length mux.nextTasks.length)).map
        (fun pr => PendingCb.mk pr.1 pr.2) := by
    rw [hres]
    show st2.pendingCbs ++ _ = _
    rw [hpend2]
    simp [kolibri_task_multiplexer_cancel]
  have hcbslen : st3.pendingCbs.length = mux.nextTasks.length := by
    rw [hcbs]
    simp [List.length_zip, List.length_range']
  have hm2 : m < st2.muxes.length := by
    rw [hrepl]
    show m < (st.muxes.set m (kolibri_task_multiplexer_cancel
      (st.muxes.getD m default)) ++
      ([⟨true, false, [⟨c2, p2, op2, st.muxes.length⟩]⟩] : List Mux)).length
    simp only [List.length_append, List.length_set, List.length_singleton]
    omega
  have hst3muxget : st3.muxes.get? m = some (⟨false, true, []⟩ : Mux) := by
    rw [hres]
    show (st2.muxes.set m ⟨false, true, []⟩).get? m = _
    rw [List.get?_eq_getElem?]
    simp [List.getElem?_set_self, hm2]
  have hcbmux : ∀ cb ∈ st3.pendingCbs, ∃ mx,
      st3.muxes.get? cb.sub.muxId = some mx ∧ mx.cancelled = true := by
    intro cb hcb
    rw [hcbs] at hcb
    obtain ⟨⟨sb, r⟩, hmem, hcbeq⟩ := List.mem_map.1 hcb
    have hsmem : sb ∈ mux.nextTasks := (List.of_mem_zip hmem).1
    refine ⟨⟨false, true, []⟩, ?_, rfl⟩
    rw [← hcbeq]
    show st3.muxes.get? sb.muxId = _
    rw [hsubs sb hsmem]
    exact hst3muxget
  obtain ⟨hresp, -⟩ := process_cancelled_queue basePath st3.pendingCbs st3 rfl
    hcbmux
  rw [hcbslen] at hresp
  have hmapsub : st3.pendingCbs.map PendingCb.sub = mux.nextTasks := by
    rw [hcbs, List.map_map]
    have hcomp : (PendingCb.sub ∘ fun pr : Subscriber × Nat =>
        PendingCb.mk pr.1 pr.2) = Prod.fst := rfl
    rw [hcomp]
    exact List.map_fst_zip _ _ (by rw [List.length_range'])
  intro s hs
  refine ⟨gioCancelledError, ?_⟩
  rw [hresp]
  apply List.mem_append_right
  rw [← hmapsub] at hs
  obtain ⟨cb, hcb, hcbeq⟩ := List.mem_map.1 hs
  exact List.mem_map.2 ⟨cb, hcb, by rw [hcbeq]⟩

theorem C6_discarded_multiplexer_completion_witness :
    (create_search_task c6_st1 basePath0 2 .initial ["b".toList]).muxes.get? 0 =
      some ⟨true, true,
        [⟨1, basePath0 ++ "/channel_a".toList, .initial, 0⟩]⟩ ∧
    (create_search_task c6_st1 basePath0 2 .initial ["b".toList]).current =
      some 1 ∧
    (create_search_task c6_st1 basePath0 2 .initial ["b".toList]).upstream =
      [(0, "a".toList), (1, "b".toList)] ∧
    (∀ s ∈ [(⟨1, basePath0 ++ "/channel_a".toList, .initial, 0⟩ : Subscriber)],
      ∃ err, (s.callId, Except.error err) ∈
        (process_n basePath0 1 (upstream_resolve basePath0
          (create_search_task c6_st1 basePath0 2 .initial ["b".toList]) 0
          (.error "boom".toList))).responses) := by
  exact C6_discarded_multiplexer_completion basePath0 c6_st1 0
    ⟨true, false, [⟨1, basePath0 ++ "/channel_a".toList, .initial, 0⟩]⟩
    "a".toList basePath0 2 .initial ["b".toList] "boom".toList
    rfl rfl rfl rfl (by decide) rfl (by decide)

end KolibriSearchProvider
